import Mathlib

/-!
Verification of the LOFAR simulator pipeline (`lofar-sim.py`): signal
synthesis, delay-and-sum beamforming, and spectrogram axis shapes.

Numpy float arrays are modelled as `List ℝ` (ideal real arithmetic).
`np.random.normal` draws are modelled by an arbitrary noise stream passed as a
function argument.  The spectrogram power matrix is not part of any claim and
is not modelled; `analyze_frequency` returns the (frequencies, times) axes.
-/

noncomputable section

/-- Error kinds surfaced by the numpy/scipy calls in the simulator:
`indexError` for indexing an empty list (`signals[0]` in `beamform`),
`valueError` for a numpy broadcasting failure on `+=` or for scipy's
`noverlap must be less than nperseg` check. -/
inductive PyError where
  | indexError : PyError
  | valueError : PyError
deriving DecidableEq

/-- Python `int(x)` on a real: truncation toward zero (floor for nonnegative
values, ceiling for negative ones). -/
def pyInt (x : ℝ) : ℤ := if 0 ≤ x then ⌊x⌋ else ⌈x⌉

/-- `np.linspace(start, stop, num)` in ideal real arithmetic: `num` evenly
spaced points from `start` to `stop` inclusive; `[]` for `num = 0`.  For
`num = 1` numpy returns `[start]`, which the formula below already yields
because the numerator is `0` there (division by zero is zero in Lean). -/
def linspace (start stop : ℝ) (num : ℕ) : List ℝ :=
  (List.range num).map
    (fun (i : ℕ) => start + (stop - start) * (i : ℝ) / ((num - 1 : ℕ) : ℝ))

/-- `np.roll(xs, s)` for a 1-D array: circular shift by `s`; output position
`p` holds input position `(p − s) mod L` where `L` is the length. -/
def roll (xs : List ℝ) (s : ℤ) : List ℝ :=
  (List.range xs.length).map
    (fun (p : ℕ) => xs.getD (((p : ℤ) - s) % (xs.length : ℤ)).toNat 0)

/-- In-place numpy 1-D array addition `a += b`: pointwise when the lengths
match, broadcast of a single element when `b` has length 1, otherwise a
broadcasting `ValueError` (the output operand `a` cannot change shape). -/
def iaddBroadcast (a b : List ℝ) : Except PyError (List ℝ) :=
  if b.length = a.length then .ok (List.zipWith (· + ·) a b)
  else if b.length = 1 then .ok (a.map (fun x => x + b.headD 0))
  else .error .valueError

/-- The simulator's constructor parameters (`LofarSimulator.__init__`). -/
structure LofarSimulator where
  sampling_rate : ℝ
  duration : ℝ
  noise_level : ℝ
  num_hydrophones : ℕ

/-- `self.time = np.linspace(0, duration, int(sampling_rate * duration))`. -/
def LofarSimulator.time (sim : LofarSimulator) : List ℝ :=
  linspace 0 sim.duration (pyInt (sim.sampling_rate * sim.duration)).toNat

/-- `generate_signal`: starting from `np.zeros_like(self.time)`, the loop adds
`a * sin(2π f · time + p)` for each zipped tone triple, then adds
`noise_level * np.random.normal(size=len(time))`.  Elementwise, sample `i` at
timestamp `t` is the sum over the zipped tone triples of `a * sin(2π f t + p)`
plus `noise_level` times that sample's noise draw. -/
def LofarSimulator.generate_signal (sim : LofarSimulator)
    (frequencies amplitudes phases : List ℝ) (noise : ℕ → ℝ) : List ℝ :=
  sim.time.mapIdx (fun i t =>
    ((frequencies.zip (amplitudes.zip phases)).map
      (fun fap => fap.2.1 * Real.sin (2 * Real.pi * fap.1 * t + fap.2.2))).sum
    + sim.noise_level * noise i)

/-- `generate_hydrophone_signals`: one `generate_signal` call per hydrophone,
each with its own independent noise stream `noise k`. -/
def LofarSimulator.generate_hydrophone_signals (sim : LofarSimulator)
    (frequencies amplitudes phases : List ℝ) (noise : ℕ → ℕ → ℝ) : List (List ℝ) :=
  (List.range sim.num_hydrophones).map
    (fun k => sim.generate_signal frequencies amplitudes phases (noise k))

/-- `beamform`: `delays = np.linspace(0, 0.01, len(signals))`; the accumulator
starts as `np.zeros_like(signals[0])` (an `IndexError` on an empty list); each
step does `beamformed_signal += np.roll(signal, int(delay * sampling_rate))`,
an in-place numpy addition with broadcasting. -/
def LofarSimulator.beamform (sim : LofarSimulator) (signals : List (List ℝ)) :
    Except PyError (List ℝ) :=
  match signals with
  | [] => .error .indexError
  | s₀ :: _ =>
    (signals.zip (linspace 0 0.01 signals.length)).foldlM
      (fun acc sd => iaddBroadcast acc (roll sd.1 (pyInt (sd.2 * sim.sampling_rate))))
      (List.replicate s₀.length 0)

/-- The frequency axis of `scipy.signal.spectrogram` for real input with FFT
length `nperseg`: `rfftfreq(nperseg, 1/fs)`, i.e. `k · fs / nperseg` for
`k = 0 .. nperseg/2`. -/
def spectrogram_freqs (fs : ℝ) (nperseg : ℕ) : List ℝ :=
  (List.range (nperseg / 2 + 1)).map (fun (k : ℕ) => (k : ℝ) * fs / (nperseg : ℝ))

/-- The time axis of `scipy.signal.spectrogram` on a length-`L` input: window
centers `(nperseg/2 + m·(nperseg − noverlap)) / fs`, one per segment, with
`(L − noverlap) / (nperseg − noverlap)` segments (integer division). -/
def spectrogram_times (fs : ℝ) (L nperseg noverlap : ℕ) : List ℝ :=
  (List.range ((L - noverlap) / (nperseg - noverlap))).map
    (fun (m : ℕ) => ((nperseg : ℝ) / 2 + (m : ℝ) * ((nperseg - noverlap : ℕ) : ℝ)) / fs)

/-- `analyze_frequency` calls `scipy.signal.spectrogram(signal, fs, nperseg=256,
noverlap=128)`.  Scipy's `_spectral_helper` first early-returns three empty
arrays when the input is empty (`x.size == 0`), so an empty signal succeeds
with empty axes.  Otherwise `_triage_segments` (the window argument is the
default string/tuple `('tukey', .25)`) lowers `nperseg` to the input length
when the input is shorter than 256, and then a `ValueError` is raised if
`noverlap = 128` is not strictly below the (possibly lowered) `nperseg`.
Only the two axes are returned; the power matrix is outside every claim. -/
def LofarSimulator.analyze_frequency (sim : LofarSimulator) (signal : List ℝ) :
    Except PyError (List ℝ × List ℝ) :=
  if signal.length = 0 then .ok ([], [])
  else
    let nperseg := min 256 signal.length
    if nperseg ≤ 128 then .error .valueError
    else .ok (spectrogram_freqs sim.sampling_rate nperseg,
              spectrogram_times sim.sampling_rate signal.length nperseg 128)

/-- The simulator built by the demonstration entry point:
`LofarSimulator(sampling_rate=1000, duration=10, noise_level=0.1,
num_hydrophones=40)` (also the constructor defaults). -/
def simDemo : LofarSimulator := ⟨1000, 10, 0.1, 40⟩

/-- A simulator with `noise_level = 0` for the noiseless-synthesis scenarios. -/
def simQuiet : LofarSimulator := ⟨2, 1, 0, 3⟩

/-- A simulator constructed with `num_hydrophones = 0`. -/
def simZero : LofarSimulator := ⟨1000, 10, 0.1, 0⟩

/-- A simulator whose `sampling_rate * duration` is the non-integral `3/2`. -/
def simHalf : LofarSimulator := ⟨1, 3 / 2, 0, 1⟩

/-- A simulator whose time axis has a single sample (`int(1 * 1) = 1`). -/
def simOne : LofarSimulator := ⟨1, 1, 0, 1⟩

end

noncomputable section

/-! ### Basic facts about the embedded numpy primitives -/

theorem linspace_length (start stop : ℝ) (num : ℕ) :
    (linspace start stop num).length = num := by
  rw [linspace, List.length_map, List.length_range]

theorem getD_linspace (start stop : ℝ) (num j : ℕ) (hj : j < num) :
    (linspace start stop num).getD j 0 =
      start + (stop - start) * j / ((num - 1 : ℕ) : ℝ) := by
  have hlen : j < (linspace start stop num).length := by
    rw [linspace_length]; exact hj
  rw [List.getD_eq_getElem _ _ hlen]
  simp only [linspace, List.getElem_map, List.getElem_range]

theorem roll_length (xs : List ℝ) (s : ℤ) : (roll xs s).length = xs.length := by
  rw [roll, List.length_map, List.length_range]

theorem getD_roll (xs : List ℝ) (s : ℤ) (p : ℕ) (hp : p < xs.length) :
    (roll xs s).getD p 0 = xs.getD (((p : ℤ) - s) % (xs.length : ℤ)).toNat 0 := by
  have hlen : p < (roll xs s).length := by
    rw [roll_length]; exact hp
  rw [List.getD_eq_getElem _ _ hlen]
  simp only [roll, List.getElem_map, List.getElem_range]

theorem roll_zero (xs : List ℝ) : roll xs 0 = xs := by
  apply List.ext_getElem (by rw [roll_length])
  intro p h₁ h₂
  have hp : ((p : ℤ) - 0) % (xs.length : ℤ) = (p : ℤ) := by
    rw [sub_zero]
    exact Int.emod_eq_of_lt (by positivity) (by exact_mod_cast h₂)
  simp only [roll, List.getElem_map, List.getElem_range, hp, Int.toNat_natCast]
  exact List.getD_eq_getElem _ _ h₂

theorem zipWith_add_replicate_zero (s : List ℝ) :
    List.zipWith (· + ·) (List.replicate s.length (0 : ℝ)) s = s := by
  apply List.ext_getElem (by simp)
  intro p h₁ h₂
  simp

theorem roll_roll (xs : List ℝ) (a b : ℤ) :
    roll (roll xs a) b = roll xs (a + b) := by
  rcases Nat.eq_zero_or_pos xs.length with h0 | hL
  · rw [List.length_eq_zero.mp h0]
    rfl
  · have hLz : (0 : ℤ) < (xs.length : ℤ) := by exact_mod_cast hL
    apply List.ext_getElem (by rw [roll_length, roll_length, roll_length])
    intro p h₁ h₂
    have hp : p < xs.length := by rw [roll_length] at h₂; exact h₂
    have hpr : p < (roll xs a).length := by rw [roll_length]; exact hp
    rw [← List.getD_eq_getElem _ 0 h₁, ← List.getD_eq_getElem _ 0 h₂,
      getD_roll _ _ _ hpr, roll_length, getD_roll _ _ _ hp]
    have hq0 : (0 : ℤ) ≤ ((p : ℤ) - b) % (xs.length : ℤ) :=
      Int.emod_nonneg _ hLz.ne'
    have hqlt : ((p : ℤ) - b) % (xs.length : ℤ) < (xs.length : ℤ) :=
      Int.emod_lt_of_pos _ hLz
    have hqnat : ((((p : ℤ) - b) % (xs.length : ℤ)).toNat : ℤ) =
        ((p : ℤ) - b) % (xs.length : ℤ) := Int.toNat_of_nonneg hq0
    have hqlt' : ((((p : ℤ) - b) % (xs.length : ℤ)).toNat) < xs.length := by
      exact_mod_cast hqnat ▸ hqlt
    rw [getD_roll _ _ _ hqlt', hqnat]
    congr 1
    have h1 : ((p : ℤ) - b) % (xs.length : ℤ) - a ≡ (p : ℤ) - b - a
        [ZMOD (xs.length : ℤ)] :=
      Int.ModEq.sub_right a (Int.emod_emod_of_dvd _ dvd_rfl)
    have h2 : (((p : ℤ) - b) % (xs.length : ℤ) - a) % (xs.length : ℤ) =
        ((p : ℤ) - b - a) % (xs.length : ℤ) := h1
    rw [h2]
    have h3 : (p : ℤ) - b - a = (p : ℤ) - (a + b) := by ring
    rw [h3]

theorem roll_natLength (xs : List ℝ) : roll xs (xs.length : ℤ) = xs := by
  rcases Nat.eq_zero_or_pos xs.length with h0 | hL
  · rw [List.length_eq_zero.mp h0]
    rfl
  · apply List.ext_getElem (by rw [roll_length])
    intro p h₁ h₂
    have hp : ((p : ℤ) - (xs.length : ℤ)) % (xs.length : ℤ) = (p : ℤ) := by
      rw [Int.sub_emod, Int.emod_self, sub_zero, Int.emod_emod_of_dvd _ dvd_rfl]
      exact Int.emod_eq_of_lt (by positivity) (by exact_mod_cast h₂)
    rw [← List.getD_eq_getElem _ 0 h₁, getD_roll _ _ _ h₂, hp, Int.toNat_natCast]
    exact List.getD_eq_getElem _ _ h₂

/-! ### The accumulation loop of `beamform` -/

theorem foldlM_iadd_eq_foldl {α : Type} (g : α → List ℝ) (l : List α) :
    ∀ (acc : List ℝ), (∀ x ∈ l, (g x).length = acc.length) →
      (l.foldlM (fun a x => iaddBroadcast a (g x)) acc : Except PyError (List ℝ)) =
        Except.ok (l.foldl (fun a x => List.zipWith (· + ·) a (g x)) acc) := by
  induction l with
  | nil => intro acc h; rfl
  | cons x l ih =>
    intro acc h
    have hx : (g x).length = acc.length := h x (List.mem_cons_self x l)
    have hstep : iaddBroadcast acc (g x) =
        Except.ok (List.zipWith (· + ·) acc (g x)) := by
      rw [iaddBroadcast, if_pos hx]
    have hlen : (List.zipWith (· + ·) acc (g x)).length = acc.length := by
      rw [List.length_zipWith, hx, min_self]
    rw [List.foldlM_cons, hstep, List.foldl_cons]
    exact ih _ (by intro y hy; rw [hlen]; exact h y (List.mem_cons_of_mem _ hy))

theorem foldl_zipWith_length {α : Type} (g : α → List ℝ) (l : List α) :
    ∀ (acc : List ℝ), (∀ x ∈ l, (g x).length = acc.length) →
      (l.foldl (fun a x => List.zipWith (· + ·) a (g x)) acc).length = acc.length := by
  induction l with
  | nil => intro acc h; rfl
  | cons x l ih =>
    intro acc h
    have hx : (g x).length = acc.length := h x (List.mem_cons_self x l)
    have hlen : (List.zipWith (· + ·) acc (g x)).length = acc.length := by
      rw [List.length_zipWith, hx, min_self]
    rw [List.foldl_cons]
    rw [ih _ (by intro y hy; rw [hlen]; exact h y (List.mem_cons_of_mem _ hy))]
    exact hlen

theorem foldl_zipWith_getD {α : Type} (g : α → List ℝ) (l : List α) :
    ∀ (acc : List ℝ), (∀ x ∈ l, (g x).length = acc.length) →
      ∀ p, p < acc.length →
        (l.foldl (fun a x => List.zipWith (· + ·) a (g x)) acc).getD p 0 =
          acc.getD p 0 + (l.map (fun x => (g x).getD p 0)).sum := by
  induction l with
  | nil => intro acc h p hp; simp
  | cons x l ih =>
    intro acc h p hp
    have hx : (g x).length = acc.length := h x (List.mem_cons_self x l)
    have hlen : (List.zipWith (· + ·) acc (g x)).length = acc.length := by
      rw [List.length_zipWith, hx, min_self]
    have hzip : (List.zipWith (· + ·) acc (g x)).getD p 0 =
        acc.getD p 0 + (g x).getD p 0 := by
      have hp₁ : p < (List.zipWith (· + ·) acc (g x)).length := by rw [hlen]; exact hp
      rw [List.getD_eq_getElem _ _ hp₁, List.getElem_zipWith,
        List.getD_eq_getElem _ 0 hp, List.getD_eq_getElem _ 0 (by rw [hx]; exact hp)]
    rw [List.foldl_cons,
      ih _ (by intro y hy; rw [hlen]; exact h y (List.mem_cons_of_mem _ hy)) p
        (by rw [hlen]; exact hp),
      hzip, List.map_cons, List.sum_cons, add_assoc]

theorem foldlM_iadd_ok_iff {α : Type} (g : α → List ℝ) (l : List α) :
    ∀ (acc : List ℝ),
      ((∃ out, (l.foldlM (fun a x => iaddBroadcast a (g x)) acc :
          Except PyError (List ℝ)) = Except.ok out) ↔
        ∀ x ∈ l, ((g x).length = acc.length ∨ (g x).length = 1)) := by
  induction l with
  | nil =>
    intro acc
    constructor
    · intro _ x hx; exact absurd hx (List.not_mem_nil x)
    · intro _; exact ⟨acc, rfl⟩
  | cons x l ih =>
    intro acc
    rw [List.forall_mem_cons, List.foldlM_cons]
    by_cases h1 : (g x).length = acc.length
    · have hstep : iaddBroadcast acc (g x) =
          Except.ok (List.zipWith (· + ·) acc (g x)) := by
        rw [iaddBroadcast, if_pos h1]
      have hlen : (List.zipWith (· + ·) acc (g x)).length = acc.length := by
        rw [List.length_zipWith, h1, min_self]
      rw [hstep]
      have hbind : ((Except.ok (List.zipWith (· + ·) acc (g x)) :
            Except PyError (List ℝ)) >>= fun b =>
              l.foldlM (fun a y => iaddBroadcast a (g y)) b) =
          l.foldlM (fun a y => iaddBroadcast a (g y))
            (List.zipWith (· + ·) acc (g x)) := rfl
      rw [hbind, ih _, hlen]
      simp [h1]
    · by_cases h2 : (g x).length = 1
      · have hstep : iaddBroadcast acc (g x) =
            Except.ok (acc.map (fun v => v + (g x).headD 0)) := by
          rw [iaddBroadcast, if_neg h1, if_pos h2]
        have hlen : (acc.map (fun v => v + (g x).headD 0)).length = acc.length :=
          List.length_map _ _
        rw [hstep]
        have hbind : ((Except.ok (acc.map (fun v => v + (g x).headD 0)) :
              Except PyError (List ℝ)) >>= fun b =>
                l.foldlM (fun a y => iaddBroadcast a (g y)) b) =
            l.foldlM (fun a y => iaddBroadcast a (g y))
              (acc.map (fun v => v + (g x).headD 0)) := rfl
        rw [hbind, ih _, hlen]
        simp [h2]
      · have hstep : iaddBroadcast acc (g x) =
            Except.error PyError.valueError := by
          rw [iaddBroadcast, if_neg h1, if_neg h2]
        rw [hstep]
        have hbind : ((Except.error PyError.valueError :
              Except PyError (List ℝ)) >>= fun b =>
                l.foldlM (fun a y => iaddBroadcast a (g y)) b) =
            Except.error PyError.valueError := rfl
        rw [hbind]
        constructor
        · intro ⟨out, hout⟩; exact absurd hout (by simp)
        · intro ⟨hx, _⟩; exact absurd hx (by simp [h1, h2])

theorem zip_map_eq_range_map {α β γ : Type} (F : α → β → γ) (d₁ : α) (d₂ : β)
    (l₁ : List α) (l₂ : List β) (h : l₁.length = l₂.length) :
    (l₁.zip l₂).map (fun sd => F sd.1 sd.2) =
      (List.range l₁.length).map (fun j => F (l₁.getD j d₁) (l₂.getD j d₂)) := by
  apply List.ext_getElem
  · rw [List.length_map, List.length_zip, List.length_map, List.length_range, h,
      min_self]
  · intro i h₁ h₂
    have hi₁ : i < l₁.length := by
      rw [List.length_map, List.length_range] at h₂; exact h₂
    have hi₂ : i < l₂.length := by rw [← h]; exact hi₁
    have hiz : i < (l₁.zip l₂).length := by
      rw [List.length_zip, h, min_self]; exact hi₂
    rw [List.getElem_map, List.getElem_map, List.getElem_range,
      List.getElem_zip, List.getD_eq_getElem _ _ hi₁, List.getD_eq_getElem _ _ hi₂]

theorem getD_mapIdx (l : List ℝ) (f : ℕ → ℝ → ℝ) (i : ℕ) (hi : i < l.length) :
    (l.mapIdx f).getD i 0 = f i (l.getD i 0) := by
  have hi' : i < (l.mapIdx f).length := by rw [List.length_mapIdx]; exact hi
  rw [List.getD_eq_getElem _ _ hi', List.getElem_mapIdx, List.getD_eq_getElem _ _ hi]

/-! ### Claim theorems -/

/-- Claim C7: `beamform` applied to the single-element sensor array `[s]`
returns `s` unchanged: the only delay is `0`, so the only shift is `0`, and the
circular shift by `0` is the identity. -/
theorem lofar_c7 (sim : LofarSimulator) (s : List ℝ) :
    sim.beamform [s] = Except.ok s := by
  have hd : linspace 0 0.01 1 = [0] := by
    have hr : List.range 1 = [0] := rfl
    rw [linspace, hr, List.map_cons, List.map_nil]
    norm_num
  show (([s].zip (linspace 0 0.01 ([s] : List (List ℝ)).length)).foldlM
      (fun acc sd => iaddBroadcast acc (roll sd.1 (pyInt (sd.2 * sim.sampling_rate))))
      (List.replicate s.length 0)) = Except.ok s
  rw [show ([s] : List (List ℝ)).length = 1 from rfl, hd]
  show ([(s, (0 : ℝ))].foldlM
      (fun acc sd => iaddBroadcast acc (roll sd.1 (pyInt (sd.2 * sim.sampling_rate))))
      (List.replicate s.length 0)) = Except.ok s
  rw [List.foldlM_cons]
  have h0 : pyInt ((0 : ℝ) * sim.sampling_rate) = 0 := by
    rw [zero_mul, pyInt, if_pos le_rfl, Int.floor_zero]
  have hiadd : iaddBroadcast (List.replicate s.length 0) (roll s (pyInt ((0 : ℝ) * sim.sampling_rate))) = Except.ok s := by
    rw [h0, roll_zero, iaddBroadcast, if_pos (by rw [List.length_replicate]),
      zipWith_add_replicate_zero]
  rw [hiadd]
  rfl

/-- Claim C8: the circular shift used by beamforming round-trips: shifting a
signal by `s` samples (`0 ≤ s ≤ L`) and then by `L − s` samples restores the
original signal exactly. -/
theorem lofar_c8 (xs : List ℝ) (s : ℕ) (hs : s ≤ xs.length) :
    roll (roll xs (s : ℤ)) ((xs.length - s : ℕ) : ℤ) = xs := by
  rw [roll_roll]
  have h : (s : ℤ) + ((xs.length - s : ℕ) : ℤ) = (xs.length : ℤ) := by
    push_cast [hs]
    ring
  rw [h, roll_natLength]

/-- Witness for C8 at `xs = [1, 2, 3]`, `s = 1`. -/
theorem lofar_c8_witness :
    (1 : ℕ) ≤ ([(1 : ℝ), 2, 3]).length ∧
      roll (roll [(1 : ℝ), 2, 3] ((1 : ℕ) : ℤ))
        ((([(1 : ℝ), 2, 3]).length - 1 : ℕ) : ℤ) = [(1 : ℝ), 2, 3] :=
  ⟨by norm_num, lofar_c8 [(1 : ℝ), 2, 3] 1 (by norm_num)⟩

/-- Claim C2: with `noise_level = 0` and equal-length tone lists,
`generate_signal` returns exactly the analytic sum
`Σ_k amplitude_k · sin(2π·frequency_k·t + phase_k)` at every sample timestamp
`t`; in particular the empty tone set yields the all-zero signal. -/
theorem lofar_c2 (sim : LofarSimulator) (frequencies amplitudes phases : List ℝ)
    (noise : ℕ → ℝ) (hnl : sim.noise_level = 0)
    (ha : amplitudes.length = frequencies.length)
    (hp : phases.length = frequencies.length) :
    (∀ i, i < sim.time.length →
      (sim.generate_signal frequencies amplitudes phases noise).getD i 0 =
        ((frequencies.zip (amplitudes.zip phases)).map
          (fun fap => fap.2.1 *
            Real.sin (2 * Real.pi * fap.1 * (sim.time.getD i 0) + fap.2.2))).sum)
    ∧ sim.generate_signal [] [] [] noise = List.replicate sim.time.length 0 := by
  constructor
  · intro i hi
    simp only [LofarSimulator.generate_signal, hnl, zero_mul, add_zero]
    rw [getD_mapIdx _ _ _ hi]
  · apply List.ext_getElem
    · rw [LofarSimulator.generate_signal, List.length_mapIdx, List.length_replicate]
    · intro i h₁ h₂
      simp [LofarSimulator.generate_signal, List.getElem_mapIdx, hnl]

/-- Witness for C2 on `simQuiet` (noise level `0`) with the one-tone set
`(5, 2, 0)` and a nonzero noise stream. -/
theorem lofar_c2_witness :
    simQuiet.noise_level = 0 ∧
      ((∀ i, i < simQuiet.time.length →
        (simQuiet.generate_signal [5] [2] [0] (fun _ => 7)).getD i 0 =
          ((([5] : List ℝ).zip (([2] : List ℝ).zip ([0] : List ℝ))).map
            (fun fap => fap.2.1 *
              Real.sin (2 * Real.pi * fap.1 * (simQuiet.time.getD i 0) + fap.2.2))).sum)
      ∧ simQuiet.generate_signal [] [] [] (fun _ => 7) =
          List.replicate simQuiet.time.length 0) :=
  ⟨rfl, lofar_c2 simQuiet [5] [2] [0] (fun _ => 7) rfl rfl rfl⟩

/-- Claim C3 (amended): the time axis has `int(sampling_rate × duration)`
samples, where `int` truncates toward zero (the floor for a positive product),
not `round`. -/
theorem lofar_c3_amended (sim : LofarSimulator)
    (h₁ : 0 < sim.sampling_rate) (h₂ : 0 < sim.duration) :
    sim.time.length = (⌊sim.sampling_rate * sim.duration⌋).toNat := by
  rw [LofarSimulator.time, linspace_length, pyInt,
    if_pos (le_of_lt (mul_pos h₁ h₂))]

/-- Witness for the amended C3 on the demonstration parameters
(`sampling_rate = 1000`, `duration = 10`). -/
theorem lofar_c3_witness :
    (0 : ℝ) < simDemo.sampling_rate ∧ (0 : ℝ) < simDemo.duration ∧
      simDemo.time.length = (⌊simDemo.sampling_rate * simDemo.duration⌋).toNat :=
  ⟨by norm_num [simDemo], by norm_num [simDemo],
    lofar_c3_amended simDemo (by norm_num [simDemo]) (by norm_num [simDemo])⟩

/-- Counterexample to C3 as stated: with `sampling_rate = 1`,
`duration = 3/2` the time axis has `int(3/2) = 1` sample, while
`round(3/2) = 2`. -/
theorem lofar_c3_counterexample :
    ¬ ((simHalf.time.length : ℤ) = round (simHalf.sampling_rate * simHalf.duration)) := by
  have h1 : simHalf.time.length = 1 := by
    rw [show simHalf.time =
        linspace 0 (3 / 2) (pyInt ((1 : ℝ) * (3 / 2))).toNat from rfl,
      linspace_length]
    norm_num [pyInt]
  have h2 : round (simHalf.sampling_rate * simHalf.duration) = 2 := by
    rw [show simHalf.sampling_rate * simHalf.duration = (1 : ℝ) * (3 / 2) from rfl]
    norm_num [round_eq]
  rw [h1, h2]
  norm_num

/-- Counterexample to C5 as stated: with `num_hydrophones = 0`,
`generate_hydrophone_signals` raises nothing — the list comprehension over
`range(0)` simply returns the empty list. -/
theorem lofar_c5_counterexample :
    simZero.generate_hydrophone_signals [10] [1] [0] (fun _ _ => 0) = [] := by
  rw [LofarSimulator.generate_hydrophone_signals,
    show simZero.num_hydrophones = 0 from rfl, List.range_zero, List.map_nil]

/-- Claim C5 (amended): calling `generate_hydrophone_signals` with
`num_sensors = 0` returns the empty sensor list without raising any error;
the failure only surfaces downstream when `beamform` is applied to the empty
list. -/
theorem lofar_c5_amended (sim : LofarSimulator) (h : sim.num_hydrophones = 0)
    (frequencies amplitudes phases : List ℝ) (noise : ℕ → ℕ → ℝ) :
    sim.generate_hydrophone_signals frequencies amplitudes phases noise = [] := by
  rw [LofarSimulator.generate_hydrophone_signals, h, List.range_zero, List.map_nil]

/-- Witness for the amended C5 on a simulator with zero hydrophones. -/
theorem lofar_c5_witness :
    simZero.num_hydrophones = 0 ∧
      simZero.generate_hydrophone_signals [10] [1] [0] (fun _ _ => 1) = [] :=
  ⟨rfl, lofar_c5_amended simZero rfl [10] [1] [0] (fun _ _ => 1)⟩

/-- Counterexample to C10 as stated: with `sampling_rate = 1` and
`duration = 1` the time axis is `np.linspace(0, 1, 1) = [0]`, so the last
timestamp is `0`, not the duration `1`. -/
theorem lofar_c10_counterexample :
    ¬ (simOne.time.getD (simOne.time.length - 1) 0 = simOne.duration) := by
  have ht : simOne.time = [0] := by
    have h1 : (pyInt (simOne.sampling_rate * simOne.duration)).toNat = 1 := by
      rw [show simOne.sampling_rate * simOne.duration = (1 : ℝ) * 1 from rfl]
      norm_num [pyInt]
    rw [LofarSimulator.time, h1]
    have hr : List.range 1 = [0] := rfl
    rw [linspace, hr, List.map_cons, List.map_nil]
    norm_num
  rw [ht, show simOne.duration = (1 : ℝ) from rfl]
  norm_num

/-- Claim C10 (amended): whenever `n = int(sampling_rate × duration) ≥ 2`
(so that the axis has at least two points), the time axis has `n` samples with
`time[i] = i·duration/(n − 1)`, includes both endpoints (the last sample is
exactly `duration`), and has constant spacing `duration/(n − 1)`, which is
strictly larger than `1/sampling_rate`.  For `n ≤ 1` (e.g. `sampling_rate = 1`,
`duration = 1`) the axis degenerates and its last sample is not `duration`. -/
theorem lofar_c10_amended (sim : LofarSimulator) (n : ℕ)
    (h₁ : 0 < sim.sampling_rate) (h₂ : 0 < sim.duration)
    (hn : n = (pyInt (sim.sampling_rate * sim.duration)).toNat) (h2n : 2 ≤ n) :
    sim.time.length = n ∧
    (∀ i, i < n → sim.time.getD i 0 = (i : ℝ) * sim.duration / ((n : ℝ) - 1)) ∧
    sim.time.getD (n - 1) 0 = sim.duration ∧
    (∀ i, i + 1 < n →
      sim.time.getD (i + 1) 0 - sim.time.getD i 0 = sim.duration / ((n : ℝ) - 1)) ∧
    1 / sim.sampling_rate < sim.duration / ((n : ℝ) - 1) := by
  have htime : sim.time = linspace 0 sim.duration n := by
    rw [LofarSimulator.time, hn]
  have hcast : ((n - 1 : ℕ) : ℝ) = (n : ℝ) - 1 := by
    have h1n : 1 ≤ n := le_trans (by norm_num) h2n
    push_cast [h1n]
    ring
  have hm : (0 : ℝ) < (n : ℝ) - 1 := by
    have : (2 : ℝ) ≤ (n : ℝ) := by exact_mod_cast h2n
    linarith
  have hgetD : ∀ i, i < n →
      sim.time.getD i 0 = (i : ℝ) * sim.duration / ((n : ℝ) - 1) := by
    intro i hi
    rw [htime, getD_linspace 0 sim.duration n i hi, hcast]
    ring
  refine ⟨by rw [htime, linspace_length], hgetD, ?_, ?_, ?_⟩
  · rw [hgetD (n - 1) (by omega), hcast]
    field_simp
  · intro i hi
    rw [hgetD (i + 1) hi, hgetD i (by omega)]
    rw [div_sub_div_same]
    push_cast
    ring
  · have hx : (0 : ℝ) < sim.sampling_rate * sim.duration := mul_pos h₁ h₂
    have hfl : pyInt (sim.sampling_rate * sim.duration) =
        ⌊sim.sampling_rate * sim.duration⌋ := by
      rw [pyInt, if_pos hx.le]
    have hnn : (0 : ℤ) ≤ ⌊sim.sampling_rate * sim.duration⌋ :=
      Int.floor_nonneg.mpr hx.le
    have hcastZ : (n : ℤ) = ⌊sim.sampling_rate * sim.duration⌋ := by
      rw [hn, hfl, Int.toNat_of_nonneg hnn]
    have hle : (n : ℝ) ≤ sim.sampling_rate * sim.duration := by
      have hfle := Int.floor_le (sim.sampling_rate * sim.duration)
      rw [← hcastZ] at hfle
      exact_mod_cast hfle
    rw [div_lt_div_iff₀ h₁ hm]
    have hcomm : sim.sampling_rate * sim.duration =
        sim.duration * sim.sampling_rate := mul_comm _ _
    linarith

/-- Witness for the amended C10 on `simQuiet` (`sampling_rate = 2`,
`duration = 1`, so `n = 2`). -/
theorem lofar_c10_witness :
    (0 : ℝ) < simQuiet.sampling_rate ∧ (0 : ℝ) < simQuiet.duration ∧
      (2 : ℕ) = (pyInt (simQuiet.sampling_rate * simQuiet.duration)).toNat ∧
      (simQuiet.time.length = 2 ∧
        (∀ i, i < 2 → simQuiet.time.getD i 0 =
          (i : ℝ) * simQuiet.duration / (((2 : ℕ) : ℝ) - 1)) ∧
        simQuiet.time.getD (2 - 1) 0 = simQuiet.duration ∧
        (∀ i, i + 1 < 2 → simQuiet.time.getD (i + 1) 0 - simQuiet.time.getD i 0 =
          simQuiet.duration / (((2 : ℕ) : ℝ) - 1)) ∧
        1 / simQuiet.sampling_rate < simQuiet.duration / (((2 : ℕ) : ℝ) - 1)) := by
  refine ⟨by norm_num [simQuiet], by norm_num [simQuiet], ?_, ?_⟩
  · rw [show simQuiet.sampling_rate * simQuiet.duration = (2 : ℝ) * 1 from rfl]
    norm_num [pyInt]
    decide
  · exact lofar_c10_amended simQuiet 2 (by norm_num [simQuiet])
      (by norm_num [simQuiet])
      (by rw [show simQuiet.sampling_rate * simQuiet.duration = (2 : ℝ) * 1 from rfl]
          norm_num [pyInt]
          decide)
      (by norm_num)

theorem spectrogram_freqs_length (fs : ℝ) (nperseg : ℕ) :
    (spectrogram_freqs fs nperseg).length = nperseg / 2 + 1 := by
  rw [spectrogram_freqs, List.length_map, List.length_range]

theorem getD_spectrogram_freqs (fs : ℝ) (nperseg k : ℕ) (hk : k < nperseg / 2 + 1) :
    (spectrogram_freqs fs nperseg).getD k 0 = (k : ℝ) * fs / (nperseg : ℝ) := by
  have hlen : k < (spectrogram_freqs fs nperseg).length := by
    rw [spectrogram_freqs_length]; exact hk
  rw [List.getD_eq_getElem _ _ hlen]
  simp only [spectrogram_freqs, List.getElem_map, List.getElem_range]

theorem spectrogram_times_length (fs : ℝ) (L nperseg noverlap : ℕ) :
    (spectrogram_times fs L nperseg noverlap).length =
      (L - noverlap) / (nperseg - noverlap) := by
  rw [spectrogram_times, List.length_map, List.length_range]

/-- Counterexample to C9 as stated: `analyze_frequency` does not zero-pad a
short signal.  On a length-200 signal the frequency axis has
`200/2 + 1 = 101` bins, not 129 (scipy lowers `nperseg` to the input length);
and on a length-100 signal the call fails with scipy's
`noverlap must be less than nperseg` `ValueError` instead of padding. -/
theorem lofar_c9_counterexample :
    (simDemo.analyze_frequency (List.replicate 200 (0 : ℝ))).toOption.map
        (fun ft => ft.1.length) = some 101
    ∧ simDemo.analyze_frequency (List.replicate 100 (0 : ℝ)) =
        Except.error PyError.valueError := by
  constructor
  · have h1 : simDemo.analyze_frequency (List.replicate 200 (0 : ℝ)) =
        Except.ok (spectrogram_freqs simDemo.sampling_rate 200,
          spectrogram_times simDemo.sampling_rate 200 200 128) := by
      simp only [LofarSimulator.analyze_frequency, List.length_replicate]
      norm_num
    rw [h1]
    simp [Except.toOption, spectrogram_freqs_length]
  · simp only [LofarSimulator.analyze_frequency, List.length_replicate]
    norm_num

/-- Claim C9 (amended): for a signal shorter than `nperseg = 256` the analyzer
does not zero-pad.  When `128 < L < 256`, scipy lowers the window length to
`L`, producing a frequency axis of length `L/2 + 1` (not 129) and exactly one
time bin; when `0 < L ≤ 128` the call fails with a `ValueError` because
`noverlap = 128` is no longer below the lowered window length; and an empty
signal (`L = 0`) succeeds with empty frequency and time axes (scipy's
empty-input early return). -/
theorem lofar_c9_amended (sim : LofarSimulator) (signal : List ℝ)
    (h : signal.length < 256) :
    (128 < signal.length →
      sim.analyze_frequency signal =
        Except.ok (spectrogram_freqs sim.sampling_rate signal.length,
          spectrogram_times sim.sampling_rate signal.length signal.length 128) ∧
      (spectrogram_freqs sim.sampling_rate signal.length).length =
        signal.length / 2 + 1 ∧
      (spectrogram_times sim.sampling_rate signal.length signal.length 128).length = 1)
    ∧ (0 < signal.length → signal.length ≤ 128 →
      sim.analyze_frequency signal = Except.error PyError.valueError)
    ∧ (signal.length = 0 →
      sim.analyze_frequency signal = Except.ok ([], [])) := by
  have hmin : min 256 signal.length = signal.length := min_eq_right h.le
  refine ⟨?_, ?_, ?_⟩
  · intro h128
    refine ⟨?_, spectrogram_freqs_length _ _, ?_⟩
    · simp only [LofarSimulator.analyze_frequency]
      rw [if_neg (by omega), hmin, if_neg (by omega)]
    · rw [spectrogram_times_length,
        Nat.div_self (by omega : 0 < signal.length - 128)]
  · intro h0 h128
    simp only [LofarSimulator.analyze_frequency]
    rw [if_neg (by omega), hmin, if_pos h128]
  · intro h0
    simp only [LofarSimulator.analyze_frequency]
    rw [if_pos h0]

/-- Witness for the amended C9 on a length-200 zero signal. -/
theorem lofar_c9_witness :
    (List.replicate 200 (0 : ℝ)).length < 256 ∧
      ((128 < (List.replicate 200 (0 : ℝ)).length →
        simDemo.analyze_frequency (List.replicate 200 (0 : ℝ)) =
          Except.ok (spectrogram_freqs simDemo.sampling_rate
              (List.replicate 200 (0 : ℝ)).length,
            spectrogram_times simDemo.sampling_rate
              (List.replicate 200 (0 : ℝ)).length
              (List.replicate 200 (0 : ℝ)).length 128) ∧
        (spectrogram_freqs simDemo.sampling_rate
            (List.replicate 200 (0 : ℝ)).length).length =
          (List.replicate 200 (0 : ℝ)).length / 2 + 1 ∧
        (spectrogram_times simDemo.sampling_rate
            (List.replicate 200 (0 : ℝ)).length
            (List.replicate 200 (0 : ℝ)).length 128).length = 1)
      ∧ (0 < (List.replicate 200 (0 : ℝ)).length →
          (List.replicate 200 (0 : ℝ)).length ≤ 128 →
        simDemo.analyze_frequency (List.replicate 200 (0 : ℝ)) =
          Except.error PyError.valueError)
      ∧ ((List.replicate 200 (0 : ℝ)).length = 0 →
        simDemo.analyze_frequency (List.replicate 200 (0 : ℝ)) =
          Except.ok ([], []))) :=
  ⟨by norm_num, lofar_c9_amended simDemo (List.replicate 200 0) (by norm_num)⟩

/-- Claim C4: on a signal of length `L ≥ 256` (with the documented positive
sampling rate), `analyze_frequency` succeeds with a frequency axis that is
ascending from `0` to `sampling_rate/2`, spaced `sampling_rate/256` apart, of
length `256/2 + 1 = 129`, and an ascending times axis with exactly
`(L − 128)/(256 − 128)` entries. -/
theorem lofar_c4 (sim : LofarSimulator) (signal : List ℝ)
    (hsr : 0 < sim.sampling_rate) (hL : 256 ≤ signal.length) :
    ∃ freqs times : List ℝ,
      sim.analyze_frequency signal = Except.ok (freqs, times) ∧
      freqs.length = 129 ∧
      freqs.getD 0 0 = 0 ∧
      freqs.getD 128 0 = sim.sampling_rate / 2 ∧
      (∀ k, k + 1 < 129 →
        freqs.getD (k + 1) 0 - freqs.getD k 0 = sim.sampling_rate / 256) ∧
      List.Pairwise (· < ·) freqs ∧
      times.length = (signal.length - 128) / (256 - 128) ∧
      List.Pairwise (· < ·) times := by
  have hmin : min 256 signal.length = 256 := min_eq_left hL
  refine ⟨spectrogram_freqs sim.sampling_rate 256,
    spectrogram_times sim.sampling_rate signal.length 256 128,
    ?_, ?_, ?_, ?_, ?_, ?_, ?_, ?_⟩
  · simp only [LofarSimulator.analyze_frequency]
    rw [if_neg (by omega), hmin, if_neg (by norm_num)]
  · rw [spectrogram_freqs_length]
  · rw [getD_spectrogram_freqs _ _ 0 (by norm_num)]
    norm_num
  · rw [getD_spectrogram_freqs _ _ 128 (by norm_num)]
    push_cast
    ring
  · intro k hk
    rw [getD_spectrogram_freqs _ _ (k + 1) (by omega),
      getD_spectrogram_freqs _ _ k (by omega)]
    push_cast
    ring
  · rw [spectrogram_freqs]
    refine List.Pairwise.map _ ?_ (List.pairwise_lt_range _)
    intro a b hab
    have hab' : (a : ℝ) < (b : ℝ) := by exact_mod_cast hab
    have h256 : (0 : ℝ) < ((256 : ℕ) : ℝ) := by norm_num
    rw [div_lt_div_iff₀ h256 h256]
    exact mul_lt_mul_of_pos_right (mul_lt_mul_of_pos_right hab' hsr) h256
  · rw [spectrogram_times_length]
  · rw [spectrogram_times]
    refine List.Pairwise.map _ ?_ (List.pairwise_lt_range _)
    intro a b hab
    have hab' : (a : ℝ) < (b : ℝ) := by exact_mod_cast hab
    have hstep : (0 : ℝ) < ((256 - 128 : ℕ) : ℝ) := by norm_num
    rw [div_lt_div_iff₀ hsr hsr]
    exact mul_lt_mul_of_pos_right
      (add_lt_add_left (mul_lt_mul_of_pos_right hab' hstep) _) hsr

/-- Witness for C4 on a length-256 zero signal with the demonstration
sampling rate 1000. -/
theorem lofar_c4_witness :
    (0 : ℝ) < simDemo.sampling_rate ∧ 256 ≤ (List.replicate 256 (0 : ℝ)).length ∧
      (∃ freqs times : List ℝ,
        simDemo.analyze_frequency (List.replicate 256 (0 : ℝ)) =
          Except.ok (freqs, times) ∧
        freqs.length = 129 ∧
        freqs.getD 0 0 = 0 ∧
        freqs.getD 128 0 = simDemo.sampling_rate / 2 ∧
        (∀ k, k + 1 < 129 →
          freqs.getD (k + 1) 0 - freqs.getD k 0 = simDemo.sampling_rate / 256) ∧
        List.Pairwise (· < ·) freqs ∧
        times.length = ((List.replicate 256 (0 : ℝ)).length - 128) / (256 - 128) ∧
        List.Pairwise (· < ·) times) :=
  ⟨by norm_num [simDemo], by norm_num,
    lofar_c4 simDemo (List.replicate 256 0) (by norm_num [simDemo]) (by norm_num)⟩

/-- Claim C1: on a non-empty array of `N` equal-length signals of length `L`,
`beamform` succeeds with a signal of length `L` whose sample at every position
`p` is the sum over sensors `j` of `input_j[(p − shift_j) mod L]`, where
`shift_j = int(delay_j · sampling_rate)` (truncation toward zero) and
`delay_j = j · (0.01/(N−1))` (which is `0` at `j = 0`, covering the `N = 1`
case where the division is by zero). -/
theorem lofar_c1 (sim : LofarSimulator) (signals : List (List ℝ)) (L : ℕ)
    (hne : signals ≠ []) (hsig : ∀ s ∈ signals, s.length = L) :
    ∃ out : List ℝ, sim.beamform signals = Except.ok out ∧ out.length = L ∧
      ∀ p, p < L → out.getD p 0 =
        ((List.range signals.length).map (fun j =>
          (signals.getD j []).getD
            ((((p : ℤ) - pyInt ((j : ℝ) * (0.01 / ((signals.length : ℝ) - 1)) *
              sim.sampling_rate)) % (L : ℤ)).toNat) 0)).sum := by
  obtain ⟨s₀, rest, rfl⟩ := List.exists_cons_of_ne_nil hne
  have hs₀ : s₀.length = L := hsig s₀ (List.mem_cons_self _ _)
  have hdlen : (linspace 0 0.01 (s₀ :: rest).length).length = (s₀ :: rest).length :=
    linspace_length _ _ _
  have hGlen : ∀ sd ∈ (s₀ :: rest).zip (linspace 0 0.01 (s₀ :: rest).length),
      (roll sd.1 (pyInt (sd.2 * sim.sampling_rate))).length =
        (List.replicate s₀.length (0 : ℝ)).length := by
    intro sd hsd
    obtain ⟨a, b⟩ := sd
    rw [roll_length, List.length_replicate]
    rw [hsig a (List.of_mem_zip hsd).1, hs₀]
  have hbeam : sim.beamform (s₀ :: rest) =
      Except.ok (((s₀ :: rest).zip (linspace 0 0.01 (s₀ :: rest).length)).foldl
        (fun a sd => List.zipWith (· + ·) a (roll sd.1 (pyInt (sd.2 * sim.sampling_rate))))
        (List.replicate s₀.length 0)) :=
    foldlM_iadd_eq_foldl _ _ _ hGlen
  refine ⟨_, hbeam, ?_, ?_⟩
  · have hl2 : (((s₀ :: rest).zip (linspace 0 0.01 (s₀ :: rest).length)).foldl
        (fun a sd => List.zipWith (· + ·) a (roll sd.1 (pyInt (sd.2 * sim.sampling_rate))))
        (List.replicate s₀.length 0)).length =
          (List.replicate s₀.length (0 : ℝ)).length :=
      foldl_zipWith_length _ _ _ hGlen
    rw [hl2, List.length_replicate, hs₀]
  · intro p hp
    have hpL : p < (List.replicate s₀.length (0 : ℝ)).length := by
      rw [List.length_replicate, hs₀]; exact hp
    have hg2 : (((s₀ :: rest).zip (linspace 0 0.01 (s₀ :: rest).length)).foldl
        (fun a sd => List.zipWith (· + ·) a (roll sd.1 (pyInt (sd.2 * sim.sampling_rate))))
        (List.replicate s₀.length 0)).getD p 0 =
        (List.replicate s₀.length (0 : ℝ)).getD p 0 +
          (((s₀ :: rest).zip (linspace 0 0.01 (s₀ :: rest).length)).map
            (fun sd => (roll sd.1 (pyInt (sd.2 * sim.sampling_rate))).getD p 0)).sum :=
      foldl_zipWith_getD _ _ _ hGlen p hpL
    rw [hg2]
    have hrep : (List.replicate s₀.length (0 : ℝ)).getD p 0 = 0 := by
      rw [List.getD_eq_getElem _ _ hpL, List.getElem_replicate]
    rw [hrep, zero_add]
    have hzm : ((s₀ :: rest).zip (linspace 0 0.01 (s₀ :: rest).length)).map
        (fun sd => (roll sd.1 (pyInt (sd.2 * sim.sampling_rate))).getD p 0) =
        (List.range (s₀ :: rest).length).map (fun j =>
          (roll ((s₀ :: rest).getD j [])
            (pyInt ((linspace 0 0.01 (s₀ :: rest).length).getD j 0 *
              sim.sampling_rate))).getD p 0) :=
      zip_map_eq_range_map
        (fun s d => (roll s (pyInt (d * sim.sampling_rate))).getD p 0) [] 0 _ _
        hdlen.symm
    rw [hzm]
    apply congrArg List.sum
    apply List.map_congr_left
    intro j hj
    have hjN : j < (s₀ :: rest).length := List.mem_range.mp hj
    have hsj : ((s₀ :: rest).getD j []).length = L := by
      rw [List.getD_eq_getElem _ _ hjN]
      exact hsig _ (List.getElem_mem hjN)
    have hdj : (linspace 0 0.01 (s₀ :: rest).length).getD j 0 * sim.sampling_rate =
        (j : ℝ) * (0.01 / (((s₀ :: rest).length : ℝ) - 1)) * sim.sampling_rate := by
      rw [getD_linspace 0 0.01 _ j hjN]
      have h1N : 1 ≤ (s₀ :: rest).length := Nat.succ_le_succ (Nat.zero_le _)
      have hN1 : (((s₀ :: rest).length - 1 : ℕ) : ℝ) =
          ((s₀ :: rest).length : ℝ) - 1 := by
        push_cast [h1N]
        ring
      rw [hN1]
      ring
    rw [hdj, getD_roll _ _ _ (by rw [hsj]; exact hp), hsj]

/-- Witness for C1 on two equal-length sensors `[1,2]` and `[3,4]`. -/
theorem lofar_c1_witness :
    ([[(1 : ℝ), 2], [3, 4]] : List (List ℝ)) ≠ [] ∧
      (∀ s ∈ ([[(1 : ℝ), 2], [3, 4]] : List (List ℝ)), s.length = 2) ∧
      (∃ out : List ℝ,
        simDemo.beamform [[(1 : ℝ), 2], [3, 4]] = Except.ok out ∧ out.length = 2 ∧
        ∀ p, p < 2 → out.getD p 0 =
          ((List.range ([[(1 : ℝ), 2], [3, 4]] : List (List ℝ)).length).map (fun j =>
            (([[(1 : ℝ), 2], [3, 4]] : List (List ℝ)).getD j []).getD
              ((((p : ℤ) - pyInt ((j : ℝ) *
                (0.01 / ((([[(1 : ℝ), 2], [3, 4]] : List (List ℝ)).length : ℝ) - 1)) *
                simDemo.sampling_rate)) % ((2 : ℕ) : ℤ)).toNat) 0)).sum) :=
  ⟨by simp, by intro s hs; fin_cases hs <;> rfl,
    lofar_c1 simDemo [[(1 : ℝ), 2], [3, 4]] 2 (by simp)
      (by intro s hs; fin_cases hs <;> rfl)⟩

theorem except_error_iff_not_ok {ε α : Type} (v : Except ε α) :
    (∃ e, v = Except.error e) ↔ ¬ ∃ o, v = Except.ok o := by
  cases v with
  | ok o =>
    constructor
    · rintro ⟨e, h⟩
      exact absurd h (by simp)
    · intro h
      exact absurd ⟨o, rfl⟩ h
  | error e =>
    constructor
    · rintro ⟨e', _⟩ ⟨o, h⟩
      exact absurd h (by simp)
    · intro _
      exact ⟨e, rfl⟩

/-- Claim C6 (amended): `beamform` fails exactly when the sensor array is
empty, or when some signal's length differs from the first signal's length and
is not 1 — numpy silently broadcasts a length-1 signal across the accumulator
instead of raising.  In particular it succeeds on every non-empty array of
equal-length signals. -/
theorem lofar_c6_amended (sim : LofarSimulator) (signals : List (List ℝ)) :
    (∃ e, sim.beamform signals = Except.error e) ↔
      (signals = [] ∨
        ∃ s ∈ signals, s.length ≠ (signals.headD []).length ∧ s.length ≠ 1) := by
  cases signals with
  | nil =>
    constructor
    · intro _
      exact Or.inl rfl
    · intro _
      exact ⟨PyError.indexError, rfl⟩
  | cons s₀ rest =>
    have hdlen : (linspace 0 0.01 (s₀ :: rest).length).length =
        (s₀ :: rest).length := linspace_length _ _ _
    have hv : sim.beamform (s₀ :: rest) =
        ((s₀ :: rest).zip (linspace 0 0.01 (s₀ :: rest).length)).foldlM
          (fun acc sd => iaddBroadcast acc (roll sd.1 (pyInt (sd.2 * sim.sampling_rate))))
          (List.replicate s₀.length 0) := rfl
    rw [hv, except_error_iff_not_ok]
    have hiff2 : (∃ out, (((s₀ :: rest).zip (linspace 0 0.01 (s₀ :: rest).length)).foldlM
          (fun acc sd => iaddBroadcast acc (roll sd.1 (pyInt (sd.2 * sim.sampling_rate))))
          (List.replicate s₀.length 0) : Except PyError (List ℝ)) = Except.ok out) ↔
        ∀ sd ∈ (s₀ :: rest).zip (linspace 0 0.01 (s₀ :: rest).length),
          ((roll sd.1 (pyInt (sd.2 * sim.sampling_rate))).length =
              (List.replicate s₀.length (0 : ℝ)).length ∨
            (roll sd.1 (pyInt (sd.2 * sim.sampling_rate))).length = 1) :=
      foldlM_iadd_ok_iff _ _ _
    rw [hiff2]
    simp only [List.headD_cons]
    constructor
    · intro hnot
      push_neg at hnot
      obtain ⟨sd, hsd, hbad⟩ := hnot
      rw [roll_length, List.length_replicate] at hbad
      exact Or.inr ⟨sd.1, (List.of_mem_zip hsd).1, hbad.1, hbad.2⟩
    · intro h hall
      rcases h with h | ⟨s, hs, h1, h2⟩
      · exact List.cons_ne_nil _ _ h
      · obtain ⟨d, hd⟩ : ∃ d, (s, d) ∈
            (s₀ :: rest).zip (linspace 0 0.01 (s₀ :: rest).length) := by
          have hmap : ((s₀ :: rest).zip
              (linspace 0 0.01 (s₀ :: rest).length)).map Prod.fst = s₀ :: rest :=
            List.map_fst_zip _ _ (by rw [hdlen])
          rw [← hmap] at hs
          obtain ⟨⟨a, b⟩, hsd, hfst⟩ := List.mem_map.mp hs
          subst hfst
          exact ⟨b, hsd⟩
        have hcase := hall (s, d) hd
        rw [roll_length, List.length_replicate] at hcase
        rcases hcase with h | h
        · exact h1 h
        · exact h2 h

/-- Counterexample to C6 as stated: the array `[[1,2],[5]]` has signals of
unequal length, yet `beamform` succeeds — numpy broadcasts the length-1 signal
`[5]` across the length-2 accumulator, returning `[6, 7]` instead of raising a
shape error. -/
theorem lofar_c6_counterexample :
    ([(1 : ℝ), 2].length ≠ ([(5 : ℝ)]).length) ∧
      simDemo.beamform [[(1 : ℝ), 2], [5]] = Except.ok [6, 7] := by
  refine ⟨by norm_num, ?_⟩
  have hd : linspace 0 0.01 2 = [0, 0.01] := by
    have hr : List.range 2 = [0, 1] := rfl
    rw [linspace, hr, List.map_cons, List.map_cons, List.map_nil]
    norm_num
  show (([[(1 : ℝ), 2], [5]] : List (List ℝ)).zip
      (linspace 0 0.01 ([[(1 : ℝ), 2], [5]] : List (List ℝ)).length)).foldlM
      (fun acc sd => iaddBroadcast acc (roll sd.1 (pyInt (sd.2 * simDemo.sampling_rate))))
      (List.replicate ([(1 : ℝ), 2]).length 0) = Except.ok [6, 7]
  rw [show ([[(1 : ℝ), 2], [5]] : List (List ℝ)).length = 2 from rfl, hd]
  show ([([(1 : ℝ), 2], (0 : ℝ)), ([(5 : ℝ)], (0.01 : ℝ))].foldlM
      (fun acc sd => iaddBroadcast acc (roll sd.1 (pyInt (sd.2 * simDemo.sampling_rate))))
      (List.replicate 2 (0 : ℝ))) = Except.ok [6, 7]
  rw [List.foldlM_cons]
  have h0 : pyInt ((0 : ℝ) * simDemo.sampling_rate) = 0 := by
    rw [zero_mul, pyInt, if_pos le_rfl, Int.floor_zero]
  have hstep1 : iaddBroadcast (List.replicate 2 (0 : ℝ))
      (roll [(1 : ℝ), 2] (pyInt ((0 : ℝ) * simDemo.sampling_rate))) =
      Except.ok [1, 2] := by
    rw [h0, roll_zero, iaddBroadcast, if_pos (by norm_num)]
    have hrep : List.replicate 2 (0 : ℝ) = [0, 0] := rfl
    rw [hrep]
    norm_num [List.zipWith_cons_cons]
  rw [hstep1]
  show ([([(5 : ℝ)], (0.01 : ℝ))].foldlM
      (fun acc sd => iaddBroadcast acc (roll sd.1 (pyInt (sd.2 * simDemo.sampling_rate))))
      [(1 : ℝ), 2]) = Except.ok [6, 7]
  rw [List.foldlM_cons]
  have h10 : pyInt ((0.01 : ℝ) * simDemo.sampling_rate) = 10 := by
    rw [show simDemo.sampling_rate = (1000 : ℝ) from rfl, pyInt, if_pos (by norm_num)]
    norm_num
  have hroll : roll [(5 : ℝ)] (pyInt ((0.01 : ℝ) * simDemo.sampling_rate)) = [5] := by
    rw [h10, roll]
    have hr : List.range ([(5 : ℝ)].length) = [0] := rfl
    rw [hr, List.map_cons, List.map_nil]
    norm_num [Int.emod_one]
  have hstep2 : iaddBroadcast [(1 : ℝ), 2]
      (roll [(5 : ℝ)] (pyInt ((0.01 : ℝ) * simDemo.sampling_rate))) =
      Except.ok [6, 7] := by
    rw [hroll, iaddBroadcast, if_neg (by norm_num),
      if_pos (show ([(5 : ℝ)]).length = 1 from rfl)]
    norm_num
  rw [hstep2]
  rfl

/-- Witness for the amended C6: on the equal-length array `[[1,2],[3,4]]`
`beamform` does not fail. -/
theorem lofar_c6_witness :
    ¬ (∃ e, simDemo.beamform [[(1 : ℝ), 2], [3, 4]] = Except.error e) := by
  intro h
  rcases (lofar_c6_amended simDemo [[(1 : ℝ), 2], [3, 4]]).mp h with h' | ⟨s, hs, h1, h2⟩
  · exact absurd h' (by simp)
  · fin_cases hs
    · exact h1 rfl
    · exact h1 rfl
